import Mathlib

/-!
Shallow embedding of the agent proposal/confirmation workflow and the
meeting finalization pipeline of the workspace backend.

JSON values carried in AgentEvent.input and the output maps are modelled
by the inductive JVal; JavaScript objects are association lists in key
insertion order.  Database tables are Lean lists held in an explicit DB
state record; serial primary keys are modelled by explicit counters.
JavaScript Date values are modelled by a Nat instant (the JVal.time
constructor); the instant of a call is passed in explicitly as a `now`
argument.  Machine reals never occur on the verified paths: all numbers
in scope are integers, modelled by Int.
-/

namespace AgentOS

/-- A JSON-like runtime value, as stored in json columns and passed in
the input and output maps of agent events. -/
inductive JVal where
  | null : JVal
  | bool (b : Bool) : JVal
  | num (n : Int) : JVal
  | str (s : String) : JVal
  | time (t : Nat) : JVal
  | arr (xs : List JVal) : JVal
  | obj (fs : List (String × JVal)) : JVal

/-- A JavaScript object: an association list in key insertion order. -/
abbrev JObj := List (String × JVal)

inductive LlmProvider where
  | openai
  | anthropic
  | google
deriving DecidableEq

inductive NoteSource where
  | manual
  | meeting
  | importSrc
deriving DecidableEq

inductive TaskStatus where
  | todo
  | doing
  | done
deriving DecidableEq

inductive Priority where
  | low
  | med
  | high
deriving DecidableEq

inductive AgentEventStatus where
  | draft
  | awaiting_confirmation
  | executed
  | error
deriving DecidableEq

inductive ReminderMethod where
  | app_push
  | email
  | calendar
deriving DecidableEq

inductive ReminderStatus where
  | scheduled
  | sent
  | cancelled
deriving DecidableEq

/-- Row of the users table (db/schema.ts). -/
structure User where
  id : Int
  email : String
  display_name : String
  timezone : String
  llm_provider : LlmProvider
  llm_model : String
  created_at : Nat

/-- Row of the workspaces table (db/schema.ts). -/
structure Workspace where
  id : Int
  owner_id : Int
  name : String
  settings : JObj
  created_at : Nat

/-- The entities map built by extractEntities in finalize_meeting.ts:
a fixed-key record with the four lists. -/
structure Entities where
  decisions : List String
  risks : List String
  people : List String
  dates : List String
deriving DecidableEq

/-- Row of the notes table (db/schema.ts). -/
structure Note where
  id : Int
  workspace_id : Int
  title : String
  source : NoteSource
  content_md : String
  transcript_text : Option String
  summary_text : Option String
  entities : Entities
  created_by : Int
  created_at : Nat
  updated_at : Nat

/-- Row of the tasks table (db/schema.ts).  description and due_at hold
the JSON value drawn from an agent event input; the new Date conversion
applied to a truthy due_at is modelled as the identity on the stored
value, since no verified property depends on date parsing. -/
structure Task where
  id : Int
  workspace_id : Int
  title : String
  description : Option JVal
  status : TaskStatus
  priority : Priority
  due_at : Option JVal
  assignee_id : Option Int
  linked_note_id : Option Int
  created_at : Nat
  updated_at : Nat

/-- Row of the agent_events table (db/schema.ts). -/
structure AgentEvent where
  id : Int
  workspace_id : Int
  agent : String
  action : String
  input : JObj
  output : Option JObj
  status : AgentEventStatus
  created_at : Nat

/-- The relational store: one list per table plus the serial counters
that produce fresh primary keys. -/
structure DB where
  users : List User
  workspaces : List Workspace
  notes : List Note
  tasks : List Task
  agentEvents : List AgentEvent
  nextTaskId : Int
  nextNoteId : Int
  nextEventId : Int

/-! String helpers modelling the JavaScript primitives used by the
handlers: whitespace classification, trim, toLowerCase, includes, and
split on a character class or a plain separator. -/

/-- JavaScript regex \s restricted to the ASCII whitespace characters. -/
def isJsSpace (c : Char) : Bool :=
  c == ' ' || c == '\t' || c == '\n' || c == '\r' || c == '\x0b' || c == '\x0c'

/-- JavaScript regex word character [A-Za-z0-9_], used for boundaries. -/
def isWordChar (c : Char) : Bool :=
  ('A' ≤ c && c ≤ 'Z') || ('a' ≤ c && c ≤ 'z') || ('0' ≤ c && c ≤ '9') || c == '_'

def isAsciiDigit (c : Char) : Bool := '0' ≤ c && c ≤ '9'

/-- ASCII lowering of one character (JavaScript toLowerCase on the
ASCII inputs that occur here). -/
def lowerChar (c : Char) : Char :=
  if 'A' ≤ c && c ≤ 'Z' then Char.ofNat (c.toNat + 32) else c

def asciiLower (s : String) : String := String.mk (s.data.map lowerChar)

/-- JavaScript String.prototype.trim restricted to ASCII whitespace. -/
def jsTrim (s : String) : String :=
  String.mk (((s.data.dropWhile isJsSpace).reverse.dropWhile isJsSpace).reverse)

/-- Substring containment on character lists (the empty pattern is
contained everywhere, as with JavaScript includes). -/
def listContainsSub (pat : List Char) : List Char → Bool
  | [] => pat.isEmpty
  | c :: cs => pat.isPrefixOf (c :: cs) || listContainsSub pat cs

/-- JavaScript String.prototype.includes. -/
def strIncludes (s pat : String) : Bool := listContainsSub pat.data s.data

/-- JavaScript String.prototype.startsWith. -/
def jsStartsWith (s pre : String) : Bool := pre.data.isPrefixOf s.data

/-- Splitting on maximal runs of delimiter characters, the behaviour of
JavaScript String.prototype.split on a one-character-class regex with +:
leading and trailing delimiters produce empty fields, delimiter runs
collapse, and the empty string yields one empty field.  The fuel
argument bounds the recursion by the character count, keeping the
definition structurally recursive (each step consumes at least one
character, so fuel equal to the length never runs out). -/
def splitOnRunsAux (p : Char → Bool) : Nat → List Char → List Char → List String
  | _, [], acc => [String.mk acc.reverse]
  | 0, _ :: _, acc => [String.mk acc.reverse]
  | fuel + 1, c :: cs, acc =>
    if p c then
      String.mk acc.reverse :: splitOnRunsAux p fuel (cs.dropWhile p) []
    else
      splitOnRunsAux p fuel cs (c :: acc)

def splitOnRuns (p : Char → Bool) (t : String) : List String :=
  splitOnRunsAux p t.data.length t.data []

/-- JavaScript String.prototype.split on a non-empty plain separator:
leftmost non-overlapping occurrences delimit the fields, and the empty
string yields one empty field.  Fuel as in splitOnRunsAux. -/
def jsSplitOnAux (sep : List Char) : Nat → List Char → List Char → List String
  | _, [], acc => [String.mk acc.reverse]
  | 0, _ :: _, acc => [String.mk acc.reverse]
  | fuel + 1, c :: cs, acc =>
    if sep.isPrefixOf (c :: cs) then
      String.mk acc.reverse :: jsSplitOnAux sep fuel ((c :: cs).drop sep.length) []
    else
      jsSplitOnAux sep fuel cs (c :: acc)

def jsSplitOn (s sep : String) : List String :=
  jsSplitOnAux sep.data s.data.length s.data []

/-- Deduplication keeping the first occurrence, the behaviour of
spreading a JavaScript Set built from an array. -/
def dedupFirstAux (seen : List String) : List String → List String
  | [] => []
  | x :: xs =>
    if seen.contains x then dedupFirstAux seen xs
    else x :: dedupFirstAux (x :: seen) xs

def dedupFirst (l : List String) : List String := dedupFirstAux [] l

/-- Map with the element index, the behaviour of Array.prototype.map
with the index parameter. -/
def mapWithIndex (f : Nat → α → β) : Nat → List α → List β
  | _, [] => []
  | i, x :: xs => f i x :: mapWithIndex f (i + 1) xs

/-! Transcript processor: the three pure functions of
finalize_meeting.ts (generateSummary, extractEntities,
extractActions). -/

/-- The period-delimited segments of the transcript that survive the
trim filter in generateSummary: transcript.split with separator period
space, keeping segments with positive trimmed length. -/
def summarySentences (t : String) : List String :=
  (jsSplitOn t ". ").filter (fun s => 0 < (jsTrim s).length)

/-- JavaScript String.prototype.endsWith. -/
def jsEndsWith (s suf : String) : Bool := suf.data.isSuffixOf s.data

/-- generateSummary of finalize_meeting.ts. -/
def generateSummary (t : String) : String :=
  match summarySentences t with
  | [] => "Meeting transcript processed."
  | first :: _ =>
    let firstSentence := jsTrim first
    let wordCount := (jsSplitOn t " ").length
    "Meeting summary: " ++ firstSentence ++
      (if jsEndsWith firstSentence "." then "" else ".") ++
      " (" ++ toString wordCount ++ " words transcribed)"

def isSentenceDelim (c : Char) : Bool := c == '.' || c == '!' || c == '?'

/-- The sentence list shared by extractEntities and extractActions:
split on runs of sentence punctuation, trim each piece, drop empties. -/
def sentencesOf (t : String) : List String :=
  ((splitOnRuns isSentenceDelim t).map jsTrim).filter (fun s => 0 < s.length)

def decisionKeywords : List String := ["decided", "agreed", "concluded", "resolved"]

def actionKeywords : List String :=
  ["need to", "should", "will", "must", "action item", "follow up", "todo"]

def nameStoplist : List String :=
  ["The", "This", "That", "We", "They", "Meeting", "Today"]

/-- The people filter of extractEntities: one uppercase ASCII letter
followed by one or more lowercase ASCII letters. -/
def isCapitalizedWord (w : String) : Bool :=
  match w.data with
  | [] => false
  | c :: rest =>
    ('A' ≤ c && c ≤ 'Z') && !rest.isEmpty && rest.all (fun d => 'a' ≤ d && d ≤ 'z')

/-! The date pattern of extractEntities: a month name, whitespace, a one
or two digit day, an optional ordinal suffix, an optional comma and four
digit year, bracketed by word boundaries, matched case-insensitively and
globally (leftmost non-overlapping matches).  The matcher below follows
the regex backtracking order: two-digit day before one-digit day, and
each optional group present before absent. -/

def monthNames : List String :=
  ["January", "February", "March", "April", "May", "June", "July",
   "August", "September", "October", "November", "December"]

def matchCaseInsensitive : List Char → List Char → Bool
  | [], _ => true
  | _ :: _, [] => false
  | p :: ps, c :: cs => lowerChar p == lowerChar c && matchCaseInsensitive ps cs

def matchMonthLen (cs : List Char) : Option Nat :=
  (monthNames.find? (fun m => matchCaseInsensitive m.data cs)).map
    (fun m => m.length)

def ordinalLen (cs : List Char) : Option Nat :=
  match cs with
  | a :: b :: _ =>
    let s := String.mk [lowerChar a, lowerChar b]
    if s == "st" || s == "nd" || s == "rd" || s == "th" then some 2 else none
  | _ => none

def yearLen (cs : List Char) : Option Nat :=
  match cs with
  | ',' :: rest =>
    let w := (rest.takeWhile isJsSpace).length
    let rd := rest.drop w
    if 4 ≤ (rd.takeWhile isAsciiDigit).length then some (1 + w + 4) else none
  | _ => none

def boundaryAfter (cs : List Char) : Bool :=
  match cs with
  | [] => true
  | c :: _ => !isWordChar c

def trySome (c : Bool) (n : Nat) : Option Nat := if c then some n else none

/-- Length consumed by the optional ordinal and year groups followed by
a word boundary, trying combinations in regex backtracking order. -/
def dateSuffixLen (cs : List Char) : Option Nat :=
  let withOrd : Option Nat :=
    match ordinalLen cs with
    | some o =>
      (match yearLen (cs.drop o) with
       | some y => trySome (boundaryAfter (cs.drop (o + y))) (o + y)
       | none => none) <|> trySome (boundaryAfter (cs.drop o)) o
    | none => none
  let noOrd : Option Nat :=
    (match yearLen cs with
     | some y => trySome (boundaryAfter (cs.drop y)) y
     | none => none) <|> trySome (boundaryAfter cs) 0
  withOrd <|> noOrd

/-- Full date match attempt at the head of cs; prevIsWord tells whether
the character before cs is a word character (for the leading boundary).
Returns the matched length. -/
def matchDateAt (cs : List Char) (prevIsWord : Bool) : Option Nat :=
  if prevIsWord then none
  else
    match matchMonthLen cs with
    | none => none
    | some m =>
      let r1 := cs.drop m
      let w := (r1.takeWhile isJsSpace).length
      if w == 0 then none
      else
        let r2 := r1.drop w
        let dAvail := (r2.takeWhile isAsciiDigit).length
        if dAvail == 0 then none
        else
          let try2 : Option Nat :=
            if 2 ≤ dAvail then
              (dateSuffixLen (r2.drop 2)).map (fun s => m + w + 2 + s)
            else none
          let try1 : Option Nat :=
            (dateSuffixLen (r2.drop 1)).map (fun s => m + w + 1 + s)
          try2 <|> try1

/-- Global scan for non-overlapping date matches, left to right.  The
fuel argument equals the remaining character count.  Every successful
match ends in a word character, so the boundary flag after a match is
true. -/
def scanDatesAux : Nat → List Char → Bool → List String
  | 0, _, _ => []
  | _ + 1, [], _ => []
  | fuel + 1, c :: cs, prevW =>
    match matchDateAt (c :: cs) prevW with
    | some len =>
      String.mk ((c :: cs).take len) ::
        scanDatesAux fuel ((c :: cs).drop (max len 1)) true
    | none => scanDatesAux fuel cs (isWordChar c)

def scanDates (t : String) : List String := scanDatesAux t.data.length t.data false

/-- extractEntities of finalize_meeting.ts. -/
def extractEntities (t : String) : Entities :=
  let words := splitOnRuns isJsSpace t
  let potentialNames :=
    words.filter (fun w => isCapitalizedWord w && !(nameStoplist.contains w))
  let people := (dedupFirst potentialNames).take 5
  let dates := dedupFirst (scanDates t)
  let decisions :=
    ((sentencesOf t).filter
      (fun s => decisionKeywords.any (fun k => strIncludes (asciiLower s) k))).take 3
  { decisions := decisions, risks := [], people := people, dates := dates }

/-- An item of the extracted action list of finalize_meeting.ts. -/
structure ExtractedAction where
  title : String
  priority : Priority
  due_at : Option Nat
deriving DecidableEq

/-- The sentences of the transcript that contain an action keyword. -/
def actionSentences (t : String) : List String :=
  (sentencesOf t).filter
    (fun s => actionKeywords.any (fun k => strIncludes (asciiLower s) k))

/-- One action item: title truncated to 97 characters plus an ellipsis
when the sentence exceeds 100 characters, positional priority, no due
date. -/
def mkAction (i : Nat) (s : String) : ExtractedAction :=
  { title := if 100 < s.length then String.mk (s.data.take 97) ++ "..." else s,
    priority := if i == 0 then .high else if i == 1 then .med else .low,
    due_at := none }

/-- extractActions of finalize_meeting.ts. -/
def extractActions (t : String) : List ExtractedAction :=
  mapWithIndex mkAction 0 ((actionSentences t).take 3)

/-! Meeting finalizer (finalize_meeting.ts handler). -/

structure FinalizeMeetingInput where
  workspace_id : Int
  transcript : String
  title : String
  created_by : Int

structure MeetingFinalizationResponse where
  note : Note
  summary : String
  entities : Entities
  extracted_actions : List ExtractedAction

def priorityText : Priority → String
  | .low => "low"
  | .med => "med"
  | .high => "high"

/-- The Key People section body: comma-joined people, or the fixed
fallback when none were extracted. -/
def peopleSection (entities : Entities) : String :=
  if 0 < entities.people.length then String.intercalate ", " entities.people
  else "None identified"

/-- The Decisions Made section body: bullet lines, or the fixed
fallback when none were extracted. -/
def decisionsSection (entities : Entities) : String :=
  if 0 < entities.decisions.length then
    String.intercalate "\n" (entities.decisions.map (fun d => "- " ++ d))
  else "None identified"

/-- The Action Items section body: bullet lines with the priority
annotated, or the fixed fallback when none were extracted. -/
def actionsSection (actions : List ExtractedAction) : String :=
  if 0 < actions.length then
    String.intercalate "\n"
      (actions.map (fun a => "- " ++ a.title ++ " (Priority: " ++ priorityText a.priority ++ ")"))
  else "None identified"

/-- The markdown document built by finalizeMeeting: the title heading
and the five fixed sections, list sections falling back to the fixed
text when their source list is empty. -/
def buildContentMd (title transcript summary : String) (entities : Entities)
    (actions : List ExtractedAction) : String :=
  "# " ++ title ++
  "\n\n## Summary\n" ++ summary ++
  "\n\n## Transcript\n" ++ transcript ++
  "\n\n## Key People\n" ++ peopleSection entities ++
  "\n\n## Decisions Made\n" ++ decisionsSection entities ++
  "\n\n## Action Items\n" ++ actionsSection actions

/-- The notes row persisted by finalizeMeeting. -/
def noteFromFinalize (inp : FinalizeMeetingInput) (now : Nat) (db : DB) : Note :=
  { id := db.nextNoteId, workspace_id := inp.workspace_id,
    title := inp.title, source := .meeting,
    content_md := buildContentMd inp.title inp.transcript
      (generateSummary inp.transcript) (extractEntities inp.transcript)
      (extractActions inp.transcript),
    transcript_text := some inp.transcript,
    summary_text := some (generateSummary inp.transcript),
    entities := extractEntities inp.transcript, created_by := inp.created_by,
    created_at := now, updated_at := now }

/-- finalizeMeeting of finalize_meeting.ts.  The store insert enforces
the foreign keys on workspace_id and created_by; a violation surfaces
as a thrown error, modelled by the Except error branch with the store
left unchanged. -/
def finalizeMeeting (inp : FinalizeMeetingInput) (now : Nat) (db : DB) :
    DB × Except String MeetingFinalizationResponse :=
  if db.workspaces.any (fun w => w.id == inp.workspace_id) then
    if db.users.any (fun u => u.id == inp.created_by) then
      let note := noteFromFinalize inp now db
      ({ db with notes := db.notes ++ [note], nextNoteId := db.nextNoteId + 1 },
       .ok { note := note, summary := generateSummary inp.transcript,
             entities := extractEntities inp.transcript,
             extracted_actions := extractActions inp.transcript })
    else
      (db, .error "insert into notes violates foreign key constraint notes_created_by_users_id_fk")
  else
    (db, .error "insert into notes violates foreign key constraint notes_workspace_id_workspaces_id_fk")

/-! Agent lifecycle manager: agentConfirm of agent_confirm.ts, with the
create_task action executor. -/

structure AgentConfirmInput where
  event_id : Int
  approved : Bool

structure AgentConfirmResponse where
  agent_event : AgentEvent
  execution_result : Option JObj

/-- JavaScript truthiness of a runtime value (Date objects, arrays and
plain objects are always truthy). -/
def jTruthy : JVal → Bool
  | .null => false
  | .bool b => b
  | .num n => n != 0
  | .str s => s != ""
  | .time _ => true
  | .arr _ => true
  | .obj _ => true

/-- Property read on a JavaScript object. -/
def jLookup (o : JObj) (k : String) : Option JVal :=
  (o.find? (fun p => p.1 == k)).map (fun p => p.2)

def notFoundMsg (eid : Int) : String :=
  "Agent event with id " ++ toString eid ++ " not found"

def statusText : AgentEventStatus → String
  | .draft => "draft"
  | .awaiting_confirmation => "awaiting_confirmation"
  | .executed => "executed"
  | .error => "error"

def invalidStateMsg (eid : Int) (st : AgentEventStatus) : String :=
  "Agent event " ++ toString eid ++ " is not awaiting confirmation (current status: "
    ++ statusText st ++ ")"

/-- The priority column value for the insert: the stored priority field
when truthy (the logical-or fallback), otherwise med.  A truthy value
that is not one of the three enum labels is rejected by the store's
enum constraint, surfacing as an insert failure. -/
def priorityFromInput (pv : Option JVal) : Except String Priority :=
  match pv with
  | none => .ok .med
  | some v =>
    if jTruthy v then
      match v with
      | .str "low" => .ok .low
      | .str "med" => .ok .med
      | .str "high" => .ok .high
      | _ => .error "invalid input value for enum priority"
    else .ok .med

/-- The falsy fallback of the source on an optional stored value: an
absent or falsy field becomes null (used for description, and for
due_at where the Date conversion of a truthy value is modelled as the
identity). -/
def falsyToNone (v : Option JVal) : Option JVal :=
  match v with
  | some x => if jTruthy x then some x else none
  | none => none

/-- The tasks row assembled by the create_task executor from the stored
event input: the status column is fixed to todo, description and
priority get their falsy fallbacks, assignee and linked note stay
null. -/
def taskFromInput (db : DB) (now : Nat) (eventInput : JObj) (w : Int)
    (title : String) (prio : Priority) : Task :=
  { id := db.nextTaskId, workspace_id := w, title := title,
    description := falsyToNone (jLookup eventInput "description"),
    status := .todo, priority := prio,
    due_at := falsyToNone (jLookup eventInput "due_at"),
    assignee_id := none, linked_note_id := none,
    created_at := now, updated_at := now }

/-- The task insert performed by the create_task executor branch of
agentConfirm: field values drawn from the stored event input with the
falsy fallbacks of the source, the status column fixed to todo, and the
store's constraints (not-null workspace_id and title, foreign key on
workspace_id, priority enum) modelled as error results.  A non-string
title is modelled as a store rejection. -/
def insertTask (db : DB) (now : Nat) (eventInput : JObj) :
    Except String (DB × Task) :=
  match jLookup eventInput "workspace_id" with
  | some (.num w) =>
    if db.workspaces.any (fun ws => ws.id == w) then
      match jLookup eventInput "title" with
      | some (.str title) =>
        match priorityFromInput (jLookup eventInput "priority") with
        | .ok prio =>
          let task : Task := taskFromInput db now eventInput w title prio
          .ok ({ db with tasks := db.tasks ++ [task], nextTaskId := db.nextTaskId + 1 }, task)
        | .error e => .error e
      | _ => .error "null value in column title of relation tasks violates not-null constraint"
    else
      .error "insert into tasks violates foreign key constraint tasks_workspace_id_workspaces_id_fk"
  | _ => .error "null value in column workspace_id of relation tasks violates not-null constraint"

/-- The update-with-returning on the agent_events row: replace the rows
whose id matches, leaving the other columns untouched. -/
def updateEvent (evs : List AgentEvent) (eid : Int) (ev2 : AgentEvent) :
    List AgentEvent :=
  evs.map (fun e => if e.id == eid then ev2 else e)

/-- agentConfirm of agent_confirm.ts.  The pair carries the store after
the call next to the call's outcome; the thrown failures (event not
found, event not awaiting confirmation) leave the store unchanged. -/
def agentConfirm (inp : AgentConfirmInput) (now : Nat) (db : DB) :
    DB × Except String AgentConfirmResponse :=
  match db.agentEvents.find? (fun e => e.id == inp.event_id) with
  | none => (db, .error (notFoundMsg inp.event_id))
  | some ev =>
    if ev.status != .awaiting_confirmation then
      (db, .error (invalidStateMsg inp.event_id ev.status))
    else if !inp.approved then
      let outputData : JObj :=
        [("rejected", .bool true), ("rejected_at", .time now),
         ("reason", .str "User rejected proposal")]
      let ev2 := { ev with status := .error, output := some outputData }
      ({ db with agentEvents := updateEvent db.agentEvents inp.event_id ev2 },
       .ok { agent_event := ev2, execution_result := none })
    else
      if ev.action == "create_task" then
        match insertTask db now ev.input with
        | .ok (db1, task) =>
          let executionResult : JObj :=
            [("success", .bool true), ("created_task_id", .num task.id),
             ("message", .str "Task created successfully")]
          let outputData : JObj :=
            [("approved", .bool true), ("approved_at", .time now),
             ("executed_action", .str "task_created"), ("task_id", .num task.id)]
          let ev2 := { ev with status := .executed, output := some outputData }
          ({ db1 with agentEvents := updateEvent db1.agentEvents inp.event_id ev2 },
           .ok { agent_event := ev2, execution_result := some executionResult })
        | .error msg =>
          let executionResult : JObj :=
            [("success", .bool false), ("error", .str msg)]
          let outputData : JObj :=
            [("approved", .bool true), ("approved_at", .time now),
             ("execution_error", .str msg)]
          let ev2 := { ev with status := .error, output := some outputData }
          ({ db with agentEvents := updateEvent db.agentEvents inp.event_id ev2 },
           .ok { agent_event := ev2, execution_result := some executionResult })
      else
        let executionResult : JObj :=
          [("success", .bool true),
           ("message", .str ("Action " ++ ev.action ++ " executed successfully"))]
        let outputData : JObj :=
          [("approved", .bool true), ("approved_at", .time now),
           ("executed_action", .str ev.action)]
        let ev2 := { ev with status := .executed, output := some outputData }
        ({ db with agentEvents := updateEvent db.agentEvents inp.event_id ev2 },
         .ok { agent_event := ev2, execution_result := some executionResult })

/-! Agent propose.  The concrete handler body is absent from the
repository sources: src holds only a placeholder declaration returning a
mock, while the spec and the handler's tests describe the real
behaviour.  The definition below is therefore modelled from the spec. -/

/-- The textual representation a date-like value assumes under JSON
serialization; modelled as an injective encoding of the instant, since
no verified property depends on the exact date text. -/
def timeText (t : Nat) : String := toString t

mutual

/-- JSON round-trip semantics on one value: nested objects and arrays
are preserved, date values become their textual representation. -/
def jsonRoundTrip : JVal → JVal
  | .null => .null
  | .bool b => .bool b
  | .num n => .num n
  | .str s => .str s
  | .time t => .str (timeText t)
  | .arr xs => .arr (jsonRoundTripList xs)
  | .obj fs => .obj (jsonRoundTripObj fs)

def jsonRoundTripList : List JVal → List JVal
  | [] => []
  | v :: vs => jsonRoundTrip v :: jsonRoundTripList vs

def jsonRoundTripObj : List (String × JVal) → List (String × JVal)
  | [] => []
  | (k, v) :: fs => (k, jsonRoundTrip v) :: jsonRoundTripObj fs

end

structure AgentProposeInput where
  workspace_id : Int
  agent : String
  action : String
  input : JObj
  rationale : String

structure AgentProposalResponse where
  agent_event : AgentEvent
  rationale : String

/-- Modelled from the spec: the real agentPropose handler is missing
from src (agent_propose.ts is a placeholder declaration; only its tests
exist).  Per spec section 4.1, Propose requires workspace_id to
reference an existing Workspace, failing with a not-found error
otherwise; on success it persists an AgentEvent with status
awaiting_confirmation, output null and the input stored under JSON
round-trip semantics, and returns the created event together with the
supplied rationale, which is not persisted on the event. -/
def agentPropose (inp : AgentProposeInput) (now : Nat) (db : DB) :
    DB × Except String AgentProposalResponse :=
  if db.workspaces.any (fun w => w.id == inp.workspace_id) then
    let ev : AgentEvent :=
      { id := db.nextEventId, workspace_id := inp.workspace_id,
        agent := inp.agent, action := inp.action,
        input := jsonRoundTripObj inp.input, output := none,
        status := .awaiting_confirmation, created_at := now }
    ({ db with agentEvents := db.agentEvents ++ [ev],
               nextEventId := db.nextEventId + 1 },
     .ok { agent_event := ev, rationale := inp.rationale })
  else
    (db, .error ("Workspace with id " ++ toString inp.workspace_id ++ " not found"))

/-! Concrete sample store used to evaluate the handlers on closed
inputs. -/

def user1 : User :=
  { id := 1, email := "ada@example.com", display_name := "Ada",
    timezone := "UTC", llm_provider := .openai, llm_model := "gpt-4",
    created_at := 0 }

def ws1 : Workspace :=
  { id := 1, owner_id := 1, name := "Main", settings := [], created_at := 0 }

/-- An awaiting create_task proposal whose stored input references the
existing workspace. -/
def evCreateTask : AgentEvent :=
  { id := 5, workspace_id := 1, agent := "task_agent", action := "create_task",
    input := [("workspace_id", .num 1), ("title", .str "Write report")],
    output := none, status := .awaiting_confirmation, created_at := 0 }

/-- An awaiting create_task proposal whose stored input references a
missing workspace, so the task insert fails. -/
def evBadWorkspace : AgentEvent :=
  { id := 6, workspace_id := 1, agent := "task_agent", action := "create_task",
    input := [("workspace_id", .num 999), ("title", .str "Ghost task")],
    output := none, status := .awaiting_confirmation, created_at := 0 }

/-- An event already executed, not confirmable. -/
def evDone : AgentEvent :=
  { id := 7, workspace_id := 1, agent := "task_agent", action := "create_task",
    input := [], output := none, status := .executed, created_at := 0 }

def dbA : DB :=
  { users := [user1], workspaces := [ws1], notes := [], tasks := [],
    agentEvents := [evCreateTask, evBadWorkspace, evDone],
    nextTaskId := 1, nextNoteId := 1, nextEventId := 8 }

/-! Helper lemmas on the row-replacing update. -/

theorem find_replace_eq {α : Type} (p : α → Bool) (b : α) (hb : p b = true) :
    ∀ (xs : List α) (a : α), xs.find? p = some a →
      (xs.map fun x => if p x then b else x).find? p = some b := by
  intro xs
  induction xs with
  | nil => intro a h; simp [List.find?] at h
  | cons x xs ih =>
    intro a h
    by_cases hx : p x = true
    · rw [List.map_cons, if_pos hx, List.find?_cons_of_pos _ hb]
    · rw [List.find?_cons_of_neg _ hx] at h
      rw [List.map_cons, if_neg hx, List.find?_cons_of_neg _ hx]
      exact ih a h

theorem find_updateEvent (evs : List AgentEvent) (eid : Int) (ev ev2 : AgentEvent)
    (h : evs.find? (fun e => e.id == eid) = some ev) (h2 : (ev2.id == eid) = true) :
    (updateEvent evs eid ev2).find? (fun e => e.id == eid) = some ev2 :=
  find_replace_eq (fun e => e.id == eid) ev2 h2 evs ev h

/-! Claim theorems. -/

/-- C3: a Confirm call whose event_id references no AgentEvent fails
with the not-found error, and a Confirm call on an event whose status
is anything but awaiting_confirmation fails with the invalid-state
error naming the actual status; in both cases the store is returned
unchanged. -/
theorem c3_confirm_preconditions (inp : AgentConfirmInput) (now : Nat) (db : DB) :
    (db.agentEvents.find? (fun e => e.id == inp.event_id) = none →
      agentConfirm inp now db = (db, .error (notFoundMsg inp.event_id)) ∧
      ∃ a, notFoundMsg inp.event_id = a ++ "not found") ∧
    (∀ ev, db.agentEvents.find? (fun e => e.id == inp.event_id) = some ev →
      ev.status ≠ .awaiting_confirmation →
      agentConfirm inp now db = (db, .error (invalidStateMsg inp.event_id ev.status)) ∧
      ∃ a, invalidStateMsg inp.event_id ev.status =
        a ++ ("(current status: " ++ statusText ev.status ++ ")")) := by
  constructor
  · intro hfind
    refine ⟨by simp [agentConfirm, hfind], ?_⟩
    refine ⟨"Agent event with id " ++ toString inp.event_id ++ " ", ?_⟩
    simp only [notFoundMsg, String.append_assoc]
    rfl
  · intro ev hfind hst
    have hne : (ev.status != AgentEventStatus.awaiting_confirmation) = true := by
      simpa [bne_iff_ne] using hst
    refine ⟨by simp [agentConfirm, hfind, hne], ?_⟩
    refine ⟨"Agent event " ++ toString inp.event_id ++ " is not awaiting confirmation ", ?_⟩
    simp only [invalidStateMsg, String.append_assoc]
    rfl

/-- C3 witness: a missing event id fails with the not-found error and a
confirmed-executed event fails with the invalid-state error naming
executed, the store unchanged in both cases. -/
theorem c3_witness :
    (agentConfirm { event_id := 99, approved := true } 0 dbA =
       (dbA, .error (notFoundMsg 99)) ∧
     ∃ a, notFoundMsg 99 = a ++ "not found") ∧
    (agentConfirm { event_id := 7, approved := true } 0 dbA =
       (dbA, .error (invalidStateMsg 7 .executed)) ∧
     ∃ a, invalidStateMsg 7 .executed =
       a ++ ("(current status: " ++ statusText .executed ++ ")")) := by
  constructor
  · exact (c3_confirm_preconditions { event_id := 99, approved := true } 0 dbA).1 rfl
  · exact (c3_confirm_preconditions { event_id := 7, approved := true } 0 dbA).2
      evDone rfl (by decide)

/-- C4: Confirm with approved false on an awaiting event transitions the
event to status error with the fixed rejection output stamped at the
instant of transition, and the response carries no execution_result. -/
theorem c4_confirm_rejection (inp : AgentConfirmInput) (now : Nat) (db : DB)
    (ev : AgentEvent)
    (hfind : db.agentEvents.find? (fun e => e.id == inp.event_id) = some ev)
    (hstatus : ev.status = .awaiting_confirmation)
    (happr : inp.approved = false) :
    ∃ dbOut resp, agentConfirm inp now db = (dbOut, .ok resp) ∧
      resp.agent_event =
        { ev with status := .error,
                  output := some [("rejected", .bool true), ("rejected_at", .time now),
                                  ("reason", .str "User rejected proposal")] } ∧
      resp.execution_result = none ∧
      dbOut.agentEvents.find? (fun e => e.id == inp.event_id) = some resp.agent_event ∧
      dbOut.tasks = db.tasks := by
  have hne : (ev.status != AgentEventStatus.awaiting_confirmation) = false := by
    simp [hstatus]
  have hid : (ev.id == inp.event_id) = true := by
    have h2 := List.find?_some hfind
    simpa using h2
  have key : agentConfirm inp now db =
      ({ db with
           agentEvents :=
             updateEvent db.agentEvents inp.event_id
               { ev with
                   status := .error,
                   output := some [("rejected", .bool true), ("rejected_at", .time now),
                                   ("reason", .str "User rejected proposal")] } },
       .ok { agent_event :=
               { ev with
                   status := .error,
                   output := some [("rejected", .bool true), ("rejected_at", .time now),
                                   ("reason", .str "User rejected proposal")] },
             execution_result := none }) := by
    simp [agentConfirm, hfind, hne, happr]
  exact ⟨_, _, key, rfl, rfl,
    find_updateEvent db.agentEvents inp.event_id ev _ hfind hid, rfl⟩

/-- C4 witness: rejecting the sample awaiting proposal. -/
theorem c4_witness :
    ∃ dbOut resp, agentConfirm { event_id := 5, approved := false } 11 dbA =
        (dbOut, .ok resp) ∧
      resp.agent_event =
        { evCreateTask with
            status := .error,
            output := some [("rejected", .bool true), ("rejected_at", .time 11),
                            ("reason", .str "User rejected proposal")] } ∧
      resp.execution_result = none ∧
      dbOut.agentEvents.find? (fun e => e.id == (5 : Int)) = some resp.agent_event ∧
      dbOut.tasks = dbA.tasks :=
  c4_confirm_rejection { event_id := 5, approved := false } 11 dbA evCreateTask
    rfl rfl rfl

/-- insertTask succeeds when the stored input holds a numeric
workspace_id referencing an existing workspace, a string title, and a
priority field accepted by the enum column, and it appends exactly the
row assembled by taskFromInput. -/
theorem insertTask_success (db : DB) (now : Nat) (eventInput : JObj)
    (w : Int) (title : String) (p : Priority)
    (hwsid : jLookup eventInput "workspace_id" = some (.num w))
    (hws : db.workspaces.any (fun x => x.id == w) = true)
    (htitle : jLookup eventInput "title" = some (.str title))
    (hprio : priorityFromInput (jLookup eventInput "priority") = .ok p) :
    insertTask db now eventInput = .ok
      ({ db with
           tasks := db.tasks ++ [taskFromInput db now eventInput w title p],
           nextTaskId := db.nextTaskId + 1 },
       taskFromInput db now eventInput w title p) := by
  simp [insertTask, hwsid, hws, htitle, hprio]

/-- C1: Confirm with approved true on an awaiting create_task proposal
whose stored input holds valid task fields returns the event with
status executed, output holding the approval stamp, the executed action
marker and the new task id, execution_result reporting success with the
created task id, and a new todo task appended to the store. -/
theorem c1_confirm_create_task_success (inp : AgentConfirmInput) (now : Nat)
    (db : DB) (ev : AgentEvent) (w : Int) (title : String) (p : Priority)
    (hfind : db.agentEvents.find? (fun e => e.id == inp.event_id) = some ev)
    (hstatus : ev.status = .awaiting_confirmation)
    (haction : ev.action = "create_task")
    (happr : inp.approved = true)
    (hwsid : jLookup ev.input "workspace_id" = some (.num w))
    (hws : db.workspaces.any (fun x => x.id == w) = true)
    (htitle : jLookup ev.input "title" = some (.str title))
    (hprio : priorityFromInput (jLookup ev.input "priority") = .ok p) :
    ∃ dbOut resp task,
      agentConfirm inp now db = (dbOut, .ok resp) ∧
      resp.agent_event.status = .executed ∧
      resp.agent_event.output =
        some [("approved", .bool true), ("approved_at", .time now),
              ("executed_action", .str "task_created"), ("task_id", .num task.id)] ∧
      resp.execution_result =
        some [("success", .bool true), ("created_task_id", .num task.id),
              ("message", .str "Task created successfully")] ∧
      dbOut.tasks = db.tasks ++ [task] ∧
      task.id = db.nextTaskId ∧
      task.status = .todo ∧
      dbOut.agentEvents.find? (fun e => e.id == inp.event_id) = some resp.agent_event := by
  have hne : (ev.status != AgentEventStatus.awaiting_confirmation) = false := by
    simp [hstatus]
  have hbeq : (ev.action == "create_task") = true := by simp [haction]
  have hid : (ev.id == inp.event_id) = true := by
    simpa using List.find?_some hfind
  have hins := insertTask_success db now ev.input w title p hwsid hws htitle hprio
  have key : agentConfirm inp now db =
      ({ db with
           tasks := db.tasks ++ [taskFromInput db now ev.input w title p],
           nextTaskId := db.nextTaskId + 1,
           agentEvents :=
             updateEvent db.agentEvents inp.event_id
               { ev with
                   status := .executed,
                   output := some [("approved", .bool true), ("approved_at", .time now),
                                   ("executed_action", .str "task_created"),
                                   ("task_id", .num db.nextTaskId)] } },
       .ok { agent_event :=
               { ev with
                   status := .executed,
                   output := some [("approved", .bool true), ("approved_at", .time now),
                                   ("executed_action", .str "task_created"),
                                   ("task_id", .num db.nextTaskId)] },
             execution_result :=
               some [("success", .bool true), ("created_task_id", .num db.nextTaskId),
                     ("message", .str "Task created successfully")] }) := by
    simp [agentConfirm, hfind, hne, happr, hbeq, hins, taskFromInput]
  refine ⟨_, _, taskFromInput db now ev.input w title p, key, rfl, rfl, rfl, rfl, rfl, rfl, ?_⟩
  exact find_updateEvent db.agentEvents inp.event_id ev _ hfind hid

/-- C1 witness: confirming the sample valid create_task proposal. -/
theorem c1_witness :
    ∃ dbOut resp task,
      agentConfirm { event_id := 5, approved := true } 7 dbA = (dbOut, .ok resp) ∧
      resp.agent_event.status = .executed ∧
      resp.agent_event.output =
        some [("approved", .bool true), ("approved_at", .time 7),
              ("executed_action", .str "task_created"), ("task_id", .num task.id)] ∧
      resp.execution_result =
        some [("success", .bool true), ("created_task_id", .num task.id),
              ("message", .str "Task created successfully")] ∧
      dbOut.tasks = dbA.tasks ++ [task] ∧
      task.id = dbA.nextTaskId ∧
      task.status = .todo ∧
      dbOut.agentEvents.find? (fun e => e.id == (5 : Int)) = some resp.agent_event :=
  c1_confirm_create_task_success { event_id := 5, approved := true } 7 dbA
    evCreateTask 1 "Write report" .med rfl rfl rfl rfl rfl rfl rfl rfl

/-- C2: Confirm with approved true on an awaiting create_task proposal
whose stored input makes the task insert fail absorbs the failure: the
call itself succeeds, the event transitions to status error with the
approval stamp and the execution error message, execution_result
reports the failure, and no task row is created. -/
theorem c2_confirm_create_task_failure (inp : AgentConfirmInput) (now : Nat)
    (db : DB) (ev : AgentEvent) (msg : String)
    (hfind : db.agentEvents.find? (fun e => e.id == inp.event_id) = some ev)
    (hstatus : ev.status = .awaiting_confirmation)
    (haction : ev.action = "create_task")
    (happr : inp.approved = true)
    (hfail : insertTask db now ev.input = .error msg) :
    ∃ dbOut resp,
      agentConfirm inp now db = (dbOut, .ok resp) ∧
      resp.agent_event =
        { ev with
            status := .error,
            output := some [("approved", .bool true), ("approved_at", .time now),
                            ("execution_error", .str msg)] } ∧
      resp.execution_result = some [("success", .bool false), ("error", .str msg)] ∧
      dbOut.tasks = db.tasks ∧
      dbOut.nextTaskId = db.nextTaskId ∧
      dbOut.agentEvents.find? (fun e => e.id == inp.event_id) = some resp.agent_event := by
  have hne : (ev.status != AgentEventStatus.awaiting_confirmation) = false := by
    simp [hstatus]
  have hbeq : (ev.action == "create_task") = true := by simp [haction]
  have hid : (ev.id == inp.event_id) = true := by
    simpa using List.find?_some hfind
  have key : agentConfirm inp now db =
      ({ db with
           agentEvents :=
             updateEvent db.agentEvents inp.event_id
               { ev with
                   status := .error,
                   output := some [("approved", .bool true), ("approved_at", .time now),
                                   ("execution_error", .str msg)] } },
       .ok { agent_event :=
               { ev with
                   status := .error,
                   output := some [("approved", .bool true), ("approved_at", .time now),
                                   ("execution_error", .str msg)] },
             execution_result := some [("success", .bool false), ("error", .str msg)] }) := by
    simp [agentConfirm, hfind, hne, happr, hbeq, hfail]
  refine ⟨_, _, key, rfl, rfl, rfl, rfl, ?_⟩
  exact find_updateEvent db.agentEvents inp.event_id ev _ hfind hid

/-- C2 witness: confirming the sample proposal whose stored input
references a missing workspace; the insert fails on the foreign key and
the failure is absorbed. -/
theorem c2_witness :
    ∃ dbOut resp,
      agentConfirm { event_id := 6, approved := true } 9 dbA = (dbOut, .ok resp) ∧
      resp.agent_event =
        { evBadWorkspace with
            status := .error,
            output := some
              [("approved", .bool true), ("approved_at", .time 9),
               ("execution_error",
                .str "insert into tasks violates foreign key constraint tasks_workspace_id_workspaces_id_fk")] } ∧
      resp.execution_result = some
        [("success", .bool false),
         ("error",
          .str "insert into tasks violates foreign key constraint tasks_workspace_id_workspaces_id_fk")] ∧
      dbOut.tasks = dbA.tasks ∧
      dbOut.nextTaskId = dbA.nextTaskId ∧
      dbOut.agentEvents.find? (fun e => e.id == (6 : Int)) = some resp.agent_event :=
  c2_confirm_create_task_failure { event_id := 6, approved := true } 9 dbA
    evBadWorkspace
    "insert into tasks violates foreign key constraint tasks_workspace_id_workspaces_id_fk"
    rfl rfl rfl rfl rfl

/-- C10: the create_task executor normalizes falsy input fields before
insertion: an absent or empty-string description becomes null, an
absent or falsy priority becomes med, and the created task's status is
todo no matter what the stored input holds. -/
theorem c10_confirm_create_task_normalization (inp : AgentConfirmInput) (now : Nat)
    (db : DB) (ev : AgentEvent) (w : Int) (title : String) (p : Priority)
    (hfind : db.agentEvents.find? (fun e => e.id == inp.event_id) = some ev)
    (hstatus : ev.status = .awaiting_confirmation)
    (haction : ev.action = "create_task")
    (happr : inp.approved = true)
    (hwsid : jLookup ev.input "workspace_id" = some (.num w))
    (hws : db.workspaces.any (fun x => x.id == w) = true)
    (htitle : jLookup ev.input "title" = some (.str title))
    (hprio : priorityFromInput (jLookup ev.input "priority") = .ok p) :
    ∃ dbOut resp task,
      agentConfirm inp now db = (dbOut, .ok resp) ∧
      dbOut.tasks = db.tasks ++ [task] ∧
      task.status = .todo ∧
      task.priority = p ∧
      ((jLookup ev.input "description" = none ∨
        jLookup ev.input "description" = some (.str "")) → task.description = none) ∧
      ((jLookup ev.input "priority" = none ∨
        (∃ v, jLookup ev.input "priority" = some v ∧ jTruthy v = false)) → p = .med) := by
  have hne : (ev.status != AgentEventStatus.awaiting_confirmation) = false := by
    simp [hstatus]
  have hbeq : (ev.action == "create_task") = true := by simp [haction]
  have hins := insertTask_success db now ev.input w title p hwsid hws htitle hprio
  have key : agentConfirm inp now db =
      ({ db with
           tasks := db.tasks ++ [taskFromInput db now ev.input w title p],
           nextTaskId := db.nextTaskId + 1,
           agentEvents :=
             updateEvent db.agentEvents inp.event_id
               { ev with
                   status := .executed,
                   output := some [("approved", .bool true), ("approved_at", .time now),
                                   ("executed_action", .str "task_created"),
                                   ("task_id", .num db.nextTaskId)] } },
       .ok { agent_event :=
               { ev with
                   status := .executed,
                   output := some [("approved", .bool true), ("approved_at", .time now),
                                   ("executed_action", .str "task_created"),
                                   ("task_id", .num db.nextTaskId)] },
             execution_result :=
               some [("success", .bool true), ("created_task_id", .num db.nextTaskId),
                     ("message", .str "Task created successfully")] }) := by
    simp [agentConfirm, hfind, hne, happr, hbeq, hins, taskFromInput]
  refine ⟨_, _, taskFromInput db now ev.input w title p, key, rfl, rfl, rfl, ?_, ?_⟩
  · intro hdesc
    rcases hdesc with hd | hd
    · simp [taskFromInput, falsyToNone, hd]
    · simp [taskFromInput, falsyToNone, hd, jTruthy]
  · intro hp
    rcases hp with hp | ⟨v, hv, hfalsy⟩
    · rw [hp] at hprio
      simpa [priorityFromInput] using hprio.symm
    · rw [hv] at hprio
      simp [priorityFromInput, hfalsy] at hprio
      exact hprio.symm

/-- C10 witness: the sample valid proposal has no description and no
priority field, so the created task gets a null description, priority
med and status todo. -/
theorem c10_witness :
    ∃ dbOut resp task,
      agentConfirm { event_id := 5, approved := true } 13 dbA = (dbOut, .ok resp) ∧
      dbOut.tasks = dbA.tasks ++ [task] ∧
      task.status = .todo ∧
      task.priority = .med ∧
      ((jLookup evCreateTask.input "description" = none ∨
        jLookup evCreateTask.input "description" = some (.str "")) →
        task.description = none) ∧
      ((jLookup evCreateTask.input "priority" = none ∨
        (∃ v, jLookup evCreateTask.input "priority" = some v ∧ jTruthy v = false)) →
        Priority.med = .med) :=
  c10_confirm_create_task_normalization { event_id := 5, approved := true } 13 dbA
    evCreateTask 1 "Write report" .med rfl rfl rfl rfl rfl rfl rfl rfl

/-- C5: a Propose call whose workspace exists persists an AgentEvent
returned with status awaiting_confirmation, output null, input equal to
the supplied map under JSON round-trip semantics, and the supplied
rationale in the response; the stored event is the returned one (the
rationale is not part of the persisted record), and no other table
changes. -/
theorem c5_propose_success (inp : AgentProposeInput) (now : Nat) (db : DB)
    (hw : db.workspaces.any (fun x => x.id == inp.workspace_id) = true) :
    ∃ dbOut ev,
      agentPropose inp now db =
        (dbOut, .ok { agent_event := ev, rationale := inp.rationale }) ∧
      ev.status = .awaiting_confirmation ∧
      ev.output = none ∧
      ev.input = jsonRoundTripObj inp.input ∧
      dbOut.agentEvents = db.agentEvents ++ [ev] ∧
      dbOut.workspaces = db.workspaces ∧
      dbOut.notes = db.notes ∧
      dbOut.tasks = db.tasks := by
  have key : agentPropose inp now db =
      ({ db with
           agentEvents := db.agentEvents ++
             [{ id := db.nextEventId, workspace_id := inp.workspace_id,
                agent := inp.agent, action := inp.action,
                input := jsonRoundTripObj inp.input, output := none,
                status := .awaiting_confirmation, created_at := now }],
           nextEventId := db.nextEventId + 1 },
       .ok { agent_event :=
               { id := db.nextEventId, workspace_id := inp.workspace_id,
                 agent := inp.agent, action := inp.action,
                 input := jsonRoundTripObj inp.input, output := none,
                 status := .awaiting_confirmation, created_at := now },
             rationale := inp.rationale }) := by
    simp [agentPropose, hw]
  exact ⟨_, _, key, rfl, rfl, rfl, rfl, rfl, rfl, rfl⟩

/-- C5 witness: proposing against the sample store, with a nested input
holding a date value that the round trip turns into a string. -/
theorem c5_witness :
    ∃ dbOut ev,
      agentPropose
          { workspace_id := 1, agent := "calendar_agent", action := "create_event",
            input := [("title", .str "Sync"),
                      ("when", .time 99),
                      ("meta", .obj [("attendees", .arr [.str "a@b.c"])])],
            rationale := "follow-up needed" } 21 dbA =
        (dbOut, .ok { agent_event := ev, rationale := "follow-up needed" }) ∧
      ev.status = .awaiting_confirmation ∧
      ev.output = none ∧
      ev.input = jsonRoundTripObj
        [("title", .str "Sync"), ("when", .time 99),
         ("meta", .obj [("attendees", .arr [.str "a@b.c"])])] ∧
      dbOut.agentEvents = dbA.agentEvents ++ [ev] ∧
      dbOut.workspaces = dbA.workspaces ∧
      dbOut.notes = dbA.notes ∧
      dbOut.tasks = dbA.tasks :=
  c5_propose_success
    { workspace_id := 1, agent := "calendar_agent", action := "create_event",
      input := [("title", .str "Sync"), ("when", .time 99),
                ("meta", .obj [("attendees", .arr [.str "a@b.c"])])],
      rationale := "follow-up needed" } 21 dbA rfl

/-- C6: a Propose call whose workspace_id references no workspace fails
with a not-found error and creates no AgentEvent: the store is returned
unchanged. -/
theorem c6_propose_missing_workspace (inp : AgentProposeInput) (now : Nat) (db : DB)
    (hw : db.workspaces.any (fun x => x.id == inp.workspace_id) = false) :
    agentPropose inp now db =
      (db, .error ("Workspace with id " ++ toString inp.workspace_id ++ " not found")) ∧
    (∃ a, ("Workspace with id " ++ toString inp.workspace_id ++ " not found") =
      a ++ "not found") ∧
    (agentPropose inp now db).1.agentEvents = db.agentEvents := by
  have key : agentPropose inp now db =
      (db, .error ("Workspace with id " ++ toString inp.workspace_id ++ " not found")) := by
    simp [agentPropose, hw]
  refine ⟨key, ⟨"Workspace with id " ++ toString inp.workspace_id ++ " ", ?_⟩, by rw [key]⟩
  simp only [String.append_assoc]
  rfl

/-- C6 witness: proposing into a missing workspace id fails and leaves
the store unchanged. -/
theorem c6_witness :
    agentPropose
        { workspace_id := 42, agent := "task_agent", action := "create_task",
          input := [], rationale := "r" } 5 dbA =
      (dbA, .error ("Workspace with id " ++ toString (42 : Int) ++ " not found")) ∧
    (∃ a, ("Workspace with id " ++ toString (42 : Int) ++ " not found") =
      a ++ "not found") ∧
    (agentPropose
        { workspace_id := 42, agent := "task_agent", action := "create_task",
          input := [], rationale := "r" } 5 dbA).1.agentEvents = dbA.agentEvents :=
  c6_propose_missing_workspace
    { workspace_id := 42, agent := "task_agent", action := "create_task",
      input := [], rationale := "r" } 5 dbA rfl

/-- C7: a successful Finalize persists a Note with source meeting, the
raw transcript, the computed summary and entities, and a content_md
made of the title heading and the five fixed section headers in order,
each list section reading None identified when its source list is
empty; the extracted actions are returned but the persisted record
carries only the fields listed. -/
theorem c7_finalize_persists_note (inp : FinalizeMeetingInput) (now : Nat) (db : DB)
    (hw : db.workspaces.any (fun x => x.id == inp.workspace_id) = true)
    (hu : db.users.any (fun x => x.id == inp.created_by) = true) :
    ∃ dbOut resp,
      finalizeMeeting inp now db = (dbOut, .ok resp) ∧
      resp.note.source = .meeting ∧
      resp.note.transcript_text = some inp.transcript ∧
      resp.note.summary_text = some (generateSummary inp.transcript) ∧
      resp.note.entities = extractEntities inp.transcript ∧
      resp.extracted_actions = extractActions inp.transcript ∧
      dbOut.notes = db.notes ++ [resp.note] ∧
      ∃ s1 s2 s3 s4 s5,
        resp.note.content_md =
          "# " ++ inp.title ++
          ("\n\n## Summary\n" ++ (s1 ++
          ("\n\n## Transcript\n" ++ (s2 ++
          ("\n\n## Key People\n" ++ (s3 ++
          ("\n\n## Decisions Made\n" ++ (s4 ++
          ("\n\n## Action Items\n" ++ s5))))))))) ∧
        ((extractEntities inp.transcript).people = [] → s3 = "None identified") ∧
        ((extractEntities inp.transcript).decisions = [] → s4 = "None identified") ∧
        (extractActions inp.transcript = [] → s5 = "None identified") := by
  have key : finalizeMeeting inp now db =
      ({ db with
           notes := db.notes ++ [noteFromFinalize inp now db],
           nextNoteId := db.nextNoteId + 1 },
       .ok { note := noteFromFinalize inp now db,
             summary := generateSummary inp.transcript,
             entities := extractEntities inp.transcript,
             extracted_actions := extractActions inp.transcript }) := by
    simp [finalizeMeeting, hw, hu]
  refine ⟨_, _, key, rfl, rfl, rfl, rfl, rfl, rfl, ?_⟩
  refine ⟨generateSummary inp.transcript, inp.transcript,
          peopleSection (extractEntities inp.transcript),
          decisionsSection (extractEntities inp.transcript),
          actionsSection (extractActions inp.transcript), ?_, ?_, ?_, ?_⟩
  · show buildContentMd inp.title inp.transcript (generateSummary inp.transcript)
      (extractEntities inp.transcript) (extractActions inp.transcript) = _
    simp only [buildContentMd, String.append_assoc]
  · intro h
    simp [peopleSection, h]
  · intro h
    simp [decisionsSection, h]
  · intro h
    simp [actionsSection, h]

/-- C7 witness: finalizing an empty transcript in the sample store; all
extraction lists are empty, so every list section reads None
identified. -/
theorem c7_witness :
    ∃ dbOut resp,
      finalizeMeeting
          { workspace_id := 1, transcript := "", title := "Standup", created_by := 1 }
          3 dbA = (dbOut, .ok resp) ∧
      resp.note.source = .meeting ∧
      resp.note.transcript_text = some "" ∧
      resp.note.summary_text = some (generateSummary "") ∧
      resp.note.entities = extractEntities "" ∧
      resp.extracted_actions = extractActions "" ∧
      dbOut.notes = dbA.notes ++ [resp.note] ∧
      ∃ s1 s2 s3 s4 s5,
        resp.note.content_md =
          "# " ++ "Standup" ++
          ("\n\n## Summary\n" ++ (s1 ++
          ("\n\n## Transcript\n" ++ (s2 ++
          ("\n\n## Key People\n" ++ (s3 ++
          ("\n\n## Decisions Made\n" ++ (s4 ++
          ("\n\n## Action Items\n" ++ s5))))))))) ∧
        ((extractEntities "").people = [] → s3 = "None identified") ∧
        ((extractEntities "").decisions = [] → s4 = "None identified") ∧
        (extractActions "" = [] → s5 = "None identified") :=
  c7_finalize_persists_note
    { workspace_id := 1, transcript := "", title := "Standup", created_by := 1 }
    3 dbA rfl rfl

/-- C8 counterexample: the whitespace-only transcript is non-empty yet
generateSummary returns the fixed fallback string, which does not start
with the summary marker; this falsifies the claim that every non-empty
transcript yields a string starting with it. -/
theorem c8_counterexample :
    (" " : String) ≠ "" ∧
    generateSummary " " = "Meeting transcript processed." ∧
    jsStartsWith (generateSummary " ") "Meeting summary: " = false := by
  refine ⟨by decide, by decide, by decide⟩

/-- C8 amended: the empty transcript (and more generally any transcript
none of whose period-delimited segments survives trimming, such as a
whitespace-only one) yields the fixed processed message; a transcript
with a surviving segment yields the summary marker, the trimmed first
surviving segment with a period appended when missing, and the word
count annotation counting the single-space-split parts of the
transcript. -/
theorem c8_amended_summary (t : String) :
    (summarySentences t = [] → generateSummary t = "Meeting transcript processed.") ∧
    (∀ first rest, summarySentences t = first :: rest →
      generateSummary t =
        "Meeting summary: " ++ jsTrim first ++
        (if jsEndsWith (jsTrim first) "." then "" else ".") ++
        " (" ++ toString (jsSplitOn t " ").length ++ " words transcribed)" ∧
      (∃ r, generateSummary t = "Meeting summary: " ++ r) ∧
      (∃ l, generateSummary t =
        l ++ ("(" ++ toString (jsSplitOn t " ").length ++ " words transcribed)"))) := by
  constructor
  · intro h
    simp [generateSummary, h]
  · intro first rest h
    have hg : generateSummary t =
        "Meeting summary: " ++ jsTrim first ++
        (if jsEndsWith (jsTrim first) "." then "" else ".") ++
        " (" ++ toString (jsSplitOn t " ").length ++ " words transcribed)" := by
      simp [generateSummary, h]
    refine ⟨hg, ?_, ?_⟩
    · refine ⟨jsTrim first ++
        ((if jsEndsWith (jsTrim first) "." then "" else ".") ++
         (" (" ++ (toString (jsSplitOn t " ").length ++ " words transcribed)"))), ?_⟩
      rw [hg]
      simp only [String.append_assoc]
    · refine ⟨"Meeting summary: " ++ jsTrim first ++
        (if jsEndsWith (jsTrim first) "." then "" else ".") ++ " ", ?_⟩
      rw [hg]
      simp only [String.append_assoc]
      rw [show (" (" : String) ++ (toString (jsSplitOn t " ").length ++ " words transcribed)") =
        " " ++ ("(" ++ (toString (jsSplitOn t " ").length ++ " words transcribed)")) from
        String.append_assoc " " "(" _]

/-- C8 witness: a whitespace-only transcript falls back to the fixed
message, and a two-sentence transcript yields the assembled summary. -/
theorem c8_witness :
    generateSummary "   " = "Meeting transcript processed." ∧
    generateSummary "Hello world. Bye" =
      "Meeting summary: " ++ jsTrim "Hello world" ++
      (if jsEndsWith (jsTrim "Hello world") "." then "" else ".") ++
      " (" ++ toString ((jsSplitOn "Hello world. Bye" " ").length) ++ " words transcribed)" := by
  constructor
  · exact (c8_amended_summary "   ").1 (by decide)
  · exact ((c8_amended_summary "Hello world. Bye").2 "Hello world" ["Bye"] (by decide)).1

/-! Lemmas for the shape of the extracted action list. -/

theorem mapWithIndex_length (f : Nat → α → β) :
    ∀ (i : Nat) (l : List α), (mapWithIndex f i l).length = l.length := by
  intro i l
  induction l generalizing i with
  | nil => rfl
  | cons x xs ih => simp [mapWithIndex, ih]

theorem mem_mapWithIndex (f : Nat → α → β) :
    ∀ (i : Nat) (l : List α) (b : β), b ∈ mapWithIndex f i l →
      ∃ j x, x ∈ l ∧ b = f j x := by
  intro i l
  induction l generalizing i with
  | nil => intro b h; simp [mapWithIndex] at h
  | cons x xs ih =>
    intro b h
    simp only [mapWithIndex, List.mem_cons] at h
    rcases h with h | h
    · exact ⟨i, x, List.mem_cons_self x xs, h⟩
    · obtain ⟨j, y, hy, hb⟩ := ih (i + 1) b h
      exact ⟨j, y, List.mem_cons_of_mem x hy, hb⟩

theorem mkAction_spec (i : Nat) (s : String) :
    (mkAction i s).title.length ≤ 100 ∧ (mkAction i s).due_at = none ∧
    (100 < s.length → ∃ pre, (mkAction i s).title = pre ++ "...") := by
  refine ⟨?_, rfl, ?_⟩
  · by_cases h : 100 < s.length
    · simp only [mkAction, if_pos h]
      rw [String.length_append]
      have h1 : (String.mk (s.data.take 97)).length = min 97 s.data.length := by
        simp [String.length_mk]
      have h2 : ("..." : String).length = 3 := rfl
      rw [h1, h2]
      omega
    · simp only [mkAction, if_neg h]
      omega
  · intro h
    exact ⟨String.mk (s.data.take 97), by simp [mkAction, if_pos h]⟩

theorem mapWithIndex_mkAction_priorities :
    ∀ (l : List String), l.length ≤ 3 →
      (mapWithIndex mkAction 0 l).map (fun a => a.priority) =
        [Priority.high, Priority.med, Priority.low].take l.length := by
  intro l h
  match l with
  | [] => rfl
  | [a] => rfl
  | [a, b] => rfl
  | [a, b, c] => rfl
  | a :: b :: c :: d :: rest =>
    simp only [List.length_cons] at h
    omega

theorem zip_mapWithIndex_trunc :
    ∀ (l : List String) (i : Nat) (p : String × ExtractedAction),
      p ∈ l.zip (mapWithIndex mkAction i l) → 100 < p.1.length →
      ∃ pre, p.2.title = pre ++ "..." := by
  intro l
  induction l with
  | nil => intro i p h; simp [mapWithIndex] at h
  | cons x xs ih =>
    intro i p h hlen
    simp only [mapWithIndex, List.zip_cons_cons, List.mem_cons] at h
    rcases h with h | h
    · subst h
      exact (mkAction_spec i x).2.2 hlen
    · exact ih (i + 1) p h hlen

/-- C9: extractActions returns at most three items, every title has at
most 100 characters, the items whose source sentence exceeded 100
characters carry an ellipsis-terminated title, priorities are
positional (high, med, low), and due_at is never populated. -/
theorem c9_extract_actions_shape (t : String) :
    (extractActions t).length ≤ 3 ∧
    (∀ a ∈ extractActions t, a.title.length ≤ 100 ∧ a.due_at = none) ∧
    (extractActions t).map (fun a => a.priority) =
      [Priority.high, Priority.med, Priority.low].take (extractActions t).length ∧
    (∀ p ∈ ((actionSentences t).take 3).zip (extractActions t),
      100 < p.1.length → ∃ pre, p.2.title = pre ++ "...") := by
  have hlen3 : ((actionSentences t).take 3).length ≤ 3 := by
    simp [List.length_take]
  refine ⟨?_, ?_, ?_, ?_⟩
  · rw [extractActions, mapWithIndex_length]
    exact hlen3
  · intro a ha
    obtain ⟨j, x, hx, hb⟩ := mem_mapWithIndex mkAction 0 _ a ha
    rw [hb]
    exact ⟨(mkAction_spec j x).1, (mkAction_spec j x).2.1⟩
  · have hp := mapWithIndex_mkAction_priorities ((actionSentences t).take 3) hlen3
    rw [extractActions, mapWithIndex_length]
    exact hp
  · intro p hp hl
    exact zip_mapWithIndex_trunc ((actionSentences t).take 3) 0 p hp hl

set_option maxRecDepth 4096 in
/-- C9 witness: a short action sentence passes untruncated with
priority high and no due date, and a sentence longer than 100
characters gets an ellipsis-terminated title. -/
theorem c9_witness :
    (extractActions "We should ship").length ≤ 3 ∧
    ((mkAction 0 "We should ship").title.length ≤ 100 ∧
     (mkAction 0 "We should ship").due_at = none) ∧
    (∃ pre, (mkAction 0 "We need to finish the very long quarterly report covering all of the project milestones and the remaining open budget items").title = pre ++ "...") := by
  refine ⟨(c9_extract_actions_shape "We should ship").1, ?_, ?_⟩
  · have hm : mkAction 0 "We should ship" ∈ extractActions "We should ship" := by
      have h0 : extractActions "We should ship" = [mkAction 0 "We should ship"] := by
        decide
      rw [h0]
      exact List.mem_singleton_self _
    exact (c9_extract_actions_shape "We should ship").2.1 _ hm
  · have hz : ("We need to finish the very long quarterly report covering all of the project milestones and the remaining open budget items",
        mkAction 0 "We need to finish the very long quarterly report covering all of the project milestones and the remaining open budget items") ∈
        ((actionSentences "We need to finish the very long quarterly report covering all of the project milestones and the remaining open budget items").take 3).zip
          (extractActions "We need to finish the very long quarterly report covering all of the project milestones and the remaining open budget items") := by
      have h0 : ((actionSentences "We need to finish the very long quarterly report covering all of the project milestones and the remaining open budget items").take 3).zip
          (extractActions "We need to finish the very long quarterly report covering all of the project milestones and the remaining open budget items") =
          [("We need to finish the very long quarterly report covering all of the project milestones and the remaining open budget items",
            mkAction 0 "We need to finish the very long quarterly report covering all of the project milestones and the remaining open budget items")] := by
        decide
      rw [h0]
      exact List.mem_singleton_self _
    exact (c9_extract_actions_shape
      "We need to finish the very long quarterly report covering all of the project milestones and the remaining open budget items").2.2.2
      _ hz (by decide)

end AgentOS
